import Mathlib

/-!
Shallow embedding of the cluster-graph visualization engine of
`src/clusters_visualizer.js` (Smart Connections Vault Visualizer).

JavaScript numbers are modelled as rationals (`ℚ`); the transcendental
functions `Math.cos` / `Math.sin` are passed in as explicit function
parameters where the source calls them, and the double constant `Math.PI`
is passed as a rational parameter.  Object references (`node.parent`,
object-identity keyed maps) are modelled as indices into the node list.
-/

namespace ClustersVisualizer

/-- The three node variants tagged by `node.type` in the source:
`'cluster'`, `'center'`, `'member'`. -/
inductive NodeType
  | cluster
  | center
  | member
deriving DecidableEq, Repr

/-- A simulation node as built by `render` (lines 301-358) and mutated by the
simulation / tick handler.  `parent` is the index (into the node list) of a
center node's parent cluster node, modelling the JS object reference
`node.parent`; `fx`/`fy` are the optional pin coordinates (`null` ↦ `none`). -/
structure VNode where
  id : String
  type : NodeType
  color : String := ""
  radius : ℚ := 0
  x : ℚ := 0
  y : ℚ := 0
  fx : Option ℚ := none
  fy : Option ℚ := none
  parent : Nat := 0
  offsetAngle : ℚ := 0
  offsetDist : ℚ := 0
deriving DecidableEq, Repr

/-- An entry of a cluster's `centers` array; only its `key` is read by the
visualizer. -/
structure CenterObj where
  key : String
deriving DecidableEq, Repr

/-- A snapshot cluster: `key` plus its `centers` array. -/
structure Cluster where
  key : String
  centers : List CenterObj
deriving DecidableEq, Repr

/-- A snapshot member: its item's `key` and the `member.clusters` map of
per-cluster scores, modelled as an association list `cluster_key ↦ score`. -/
structure Member where
  item_key : String
  clusters : List (String × ℚ)
deriving DecidableEq, Repr

/-- A link as pushed by the builders (lines 364-369 and 244-250).  After
`d3.forceLink` resolves ids, `link.source.id` / `link.target.id` are the two
endpoint keys kept here as strings. -/
structure Link where
  source : String
  target : String
  score : ℚ
  stroke : String
  currentAlpha : ℚ
deriving DecidableEq, Repr

/-- The mutable state accumulated by the node/link building section of
`render`: the `nodes` array, the key set of the `node_map` object (insertion
order kept; only key membership is ever read), and the `links` array. -/
structure BuildState where
  nodes : List VNode
  node_map : List String
  links : List Link
deriving DecidableEq, Repr

/-- One iteration of the cluster loop (lines 301-345): push the cluster node,
register it in `node_map`, and push one center child node per entry of
`cluster.centers`, with ring offset `angle_i = (i / childCount) * 2π` and
radial offset `0.7 × cluster radius`.  `pi` stands for the double `Math.PI`;
`parent` records the cluster node's index, modelling the JS reference. -/
def clusterStep (pi : ℚ) (st : BuildState) (cluster : Cluster) : BuildState :=
  let c_idx := st.nodes.length
  let c_node : VNode :=
    { id := cluster.key, type := NodeType.cluster, color := "#926ec9", radius := 20 }
  let childCount := cluster.centers.length
  let children : List VNode := cluster.centers.enum.map (fun p =>
    { id := p.2.key, type := NodeType.center, color := "#d092c9", radius := 4,
      parent := c_idx,
      offsetAngle := ((p.1 : ℚ) / (childCount : ℚ)) * (2 * pi),
      offsetDist := (20 : ℚ) * (7/10) })
  { st with nodes := st.nodes ++ c_node :: children,
            node_map := st.node_map ++ [cluster.key] }

/-- The body of the link loop at lines 360-371: for one `(cl_id, score)`
entry of `member.clusters`, push a link when `score ≥ threshold` and
`node_map[cl_id]` exists. -/
def memberLink (member_key : String) (threshold : ℚ) (node_map : List String)
    (cs : String × ℚ) : Option Link :=
  if cs.2 ≥ threshold ∧ cs.1 ∈ node_map then
    some { source := cs.1, target := member_key, score := cs.2,
           stroke := "#4c7787", currentAlpha := 1 }
  else none

/-- One iteration of the member loop (lines 347-372): add a member node
unless its key is already in `node_map` or `clusters.some(c => c.key !==
member_key)` fails, then push a link for every `(cl_id, score)` entry with
`score ≥ threshold` and `cl_id` present in `node_map`.  The `forEach`+`push`
of the source is rendered as `filterMap` + append. -/
def memberStep (clusters : List Cluster) (threshold : ℚ)
    (st : BuildState) (member : Member) : BuildState :=
  let member_key := member.item_key
  let st1 :=
    if member_key ∉ st.node_map ∧ clusters.any (fun c => c.key ≠ member_key) then
      { st with
        nodes := st.nodes ++
          [{ id := member_key, type := NodeType.member, color := "#7c8594", radius := 7 }],
        node_map := st.node_map ++ [member_key] }
    else st
  let newLinks := member.clusters.filterMap (memberLink member_key threshold st1.node_map)
  { st1 with links := st1.links ++ newLinks }

/-- The node/link building section of `render` (lines 287-372): the cluster
loop followed by the member loop.  `threshold` is the value of
`cluster_group.settings?.threshold || 0.6` read at line 362. -/
def buildGraph (pi : ℚ) (clusters : List Cluster) (members : List Member)
    (threshold : ℚ) : BuildState :=
  members.foldl (memberStep clusters threshold)
    (clusters.foldl (clusterStep pi) ⟨[], [], []⟩)

/-- The double value of `Math.PI`, used to instantiate closed evaluations. -/
def jsPi : ℚ := 314159265358979 / 100000000000000

/-- `updateLinks(threshold)` (lines 230-257): rebuild the link array from
scratch; for each `(member, cluster)` pair with `score ≥ threshold` and
`cl_id` present in `node_map`, push a link whose `stroke` and `currentAlpha`
are taken from the first matching link of the previous `links` array when one
exists (`existingLink?.stroke || '#4c7787'`, `existingLink?.currentAlpha || 1`
— JavaScript `||` falls back on the default when the prior field is falsy,
i.e. the empty string or `0`).  The nested `forEach`+`push` is rendered as
`flatMap` + `filterMap`. -/
def updateLinks (members : List Member) (node_map : List String)
    (links : List Link) (threshold : ℚ) : List Link :=
  members.flatMap (fun member =>
    let member_key := member.item_key
    member.clusters.filterMap (fun cs =>
      if cs.2 ≥ threshold ∧ cs.1 ∈ node_map then
        let existingLink := links.find? (fun l => l.source = cs.1 ∧ l.target = member_key)
        some { source := cs.1, target := member_key, score := cs.2,
               stroke := match existingLink with
                 | some l => if l.stroke = "" then "#4c7787" else l.stroke
                 | none => "#4c7787",
               currentAlpha := match existingLink with
                 | some l => if l.currentAlpha = 0 then 1 else l.currentAlpha
                 | none => 1 }
      else none))

/-- The descending loop body of `findNodeAt` (lines 69-82), recursing over the
nodes already reversed: skip center nodes while `currentZoom <
expandThreshold`, otherwise return the node once the squared distance from
`(sx, sy)` is within its squared radius. -/
def findNodeAtGo (sx sy currentZoom expandThreshold : ℚ) : List VNode → Option VNode
  | [] => none
  | node :: rest =>
    if node.type = NodeType.center ∧ currentZoom < expandThreshold then
      findNodeAtGo sx sy currentZoom expandThreshold rest
    else
      let dx := sx - node.x
      let dy := sy - node.y
      if dx * dx + dy * dy ≤ node.radius * node.radius then some node
      else findNodeAtGo sx sy currentZoom expandThreshold rest

/-- `findNodeAt(sx, sy, nodes, currentZoom, expandThreshold = 3.0)`
(lines 68-84): iterate the nodes from the last index down to 0 and return the
first hit, `null` (here `none`) when no node matches. -/
def findNodeAt (sx sy : ℚ) (nodes : List VNode) (currentZoom : ℚ)
    (expandThreshold : ℚ := 3) : Option VNode :=
  findNodeAtGo sx sy currentZoom expandThreshold nodes.reverse

/-- A d3 zoom transform `{x, y, k}`: the map `p ↦ (k·p + (x,y))` from world
to screen coordinates. -/
structure Transform where
  x : ℚ
  y : ℚ
  k : ℚ
deriving DecidableEq, Repr

/-- `d3.zoomIdentity`. -/
def zoomIdentity : Transform := ⟨0, 0, 1⟩

/-- `transform.translate(a, b)` of d3-zoom:
`⟨x + k·a, y + k·b, k⟩`. -/
def translateT (t : Transform) (a b : ℚ) : Transform :=
  ⟨t.x + t.k * a, t.y + t.k * b, t.k⟩

/-- `transform.scale(s)` of d3-zoom: `⟨x, y, k·s⟩`. -/
def scaleT (t : Transform) (s : ℚ) : Transform :=
  ⟨t.x, t.y, t.k * s⟩

/-- `transform.invert([mx, my])` of d3-zoom: screen point to world point,
`((mx - x)/k, (my - y)/k)`. -/
def transformInvert (t : Transform) (p : ℚ × ℚ) : ℚ × ℚ :=
  ((p.1 - t.x) / t.k, (p.2 - t.y) / t.k)

/-- `minX` of the bounding-box scan of `centerNetwork` (lines 148-156).  The
source seeds the comparisons with `Infinity`; for a nonempty list that is the
same as seeding the fold with the first node, which is how this rational
embedding realizes it (the empty case, which the claims do not touch, is
given the seed 0). -/
def nodesMinX : List VNode → ℚ
  | [] => 0
  | n0 :: rest => rest.foldl (fun m d => min m d.x) n0.x

/-- `maxX` of the bounding-box scan of `centerNetwork`; see `nodesMinX`. -/
def nodesMaxX : List VNode → ℚ
  | [] => 0
  | n0 :: rest => rest.foldl (fun m d => max m d.x) n0.x

/-- `minY` of the bounding-box scan of `centerNetwork`; see `nodesMinX`. -/
def nodesMinY : List VNode → ℚ
  | [] => 0
  | n0 :: rest => rest.foldl (fun m d => min m d.y) n0.y

/-- `maxY` of the bounding-box scan of `centerNetwork`; see `nodesMinX`. -/
def nodesMaxY : List VNode → ℚ
  | [] => 0
  | n0 :: rest => rest.foldl (fun m d => max m d.y) n0.y

/-- `centerNetwork()` (lines 146-193): compute the node bounding box and set
the viewport transform; when the box has zero width or zero height, fall back
to `zoomIdentity.translate(w/2, h/2).scale(1)`; otherwise fit with 10%
padding and center the box midpoint.  The empty node list flows through IEEE
infinities in the source and is outside this rational embedding; the claims
only concern nonempty lists. -/
def centerNetwork (nodes : List VNode) (w h : ℚ) : Transform :=
  match nodes with
  | [] => zoomIdentity
  | _ :: _ =>
    let minX := nodesMinX nodes
    let maxX := nodesMaxX nodes
    let minY := nodesMinY nodes
    let maxY := nodesMaxY nodes
    let networkWidth := maxX - minX
    let networkHeight := maxY - minY
    if networkWidth = 0 ∨ networkHeight = 0 then
      scaleT (translateT zoomIdentity (w/2) (h/2)) 1
    else
      let padding : ℚ := 1/10
      let scale := (1 - padding) / max (networkWidth / w) (networkHeight / h)
      let midX := (maxX + minX) / 2
      let midY := (maxY + minY) / 2
      translateT (scaleT (translateT zoomIdentity (w/2) (h/2)) scale) (-midX) (-midY)

/-- The dead local `const charge_strength = nodes.length > 200 ? -60 : -100`
of line 389; it is computed but never passed to any force. -/
def charge_strength (nodeCount : Nat) : ℤ :=
  if nodeCount > 200 then -60 else -100

/-- The numeric parameters `render` actually installs on the d3 force
simulation (lines 390-404). -/
structure SimulationConfig where
  velocityDecay : ℚ
  chargeStrength : ℤ
deriving DecidableEq, Repr

/-- The simulation set-up of lines 390-404: `velocityDecay(0.9)` and
`forceManyBody().strength(-400)` — the literal `-400` at line 393 is applied
for every node list; the `charge_strength` local of line 389 is unused. -/
def simulationConfig (nodes : List VNode) : SimulationConfig :=
  { velocityDecay := 9/10, chargeStrength := -400 }

/-- The center-positioning pass at the top of `ticked()` (lines 842-852):
every `center` node is moved to
`parent.position + offsetDist·(cos, sin)(offsetAngle)` and pinned there
(`fx = x`, `fy = y`).  The source mutates the node array in place but this
pass writes only `center` nodes and reads only their parents, which are
`cluster` nodes, so reading the parent from the pre-pass list is equivalent;
`c` and `s` stand for `Math.cos` and `Math.sin`. -/
def tickCenterPass (c s : ℚ → ℚ) (ns : List VNode) : List VNode :=
  ns.map (fun node =>
    if node.type = NodeType.center then
      match ns.get? node.parent with
      | some parent =>
        let nx := parent.x + node.offsetDist * c node.offsetAngle
        let ny := parent.y + node.offsetDist * s node.offsetAngle
        { node with x := nx, y := ny, fx := some nx, fy := some ny }
      | none => node
    else node)

/-- The `nodeStartPositions` map recorded by the drag `start` handler
(lines 481-490): when the drag subject is part of the current selection every
selected node's `(x, y)` is recorded, otherwise only the subject's.  The
object-identity keyed `Map` is modelled with node indices; entries whose index
is out of range cannot occur in the source and are dropped. -/
def dragStartState (selected : List Nat) (subject : Nat)
    (nodes : List VNode) : List (Nat × ℚ × ℚ) :=
  if subject ∈ selected then
    selected.filterMap (fun i => (nodes.get? i).map (fun sn => (i, sn.x, sn.y)))
  else
    ((nodes.get? subject).map (fun n => (subject, n.x, n.y))).toList

/-- The drag `drag` handler (lines 492-508): invert the pointer into world
coordinates, take the delta from `dragStartPos`, and pin every node recorded
in `nodeStartPositions` at its start position plus that delta; nodes not in
the map are untouched. -/
def dragFrame (t : Transform) (dragStartPos : ℚ × ℚ)
    (nodeStartPositions : List (Nat × ℚ × ℚ)) (pointer : ℚ × ℚ)
    (nodes : List VNode) : List VNode :=
  let sxy := transformInvert t pointer
  let dx := sxy.1 - dragStartPos.1
  let dy := sxy.2 - dragStartPos.2
  nodes.enum.map (fun p =>
    match nodeStartPositions.find? (fun e => e.1 = p.1) with
    | some e => { p.2 with fx := some (e.2.1 + dx), fy := some (e.2.2 + dy) }
    | none => p.2)

/-- A cluster group as consumed by `render`: its collection `key`, its
`settings?.threshold`, and the snapshot its `get_snapshot` resolves to. -/
structure ClusterGroup where
  key : String
  threshold : Option ℚ
  snapshot_clusters : List Cluster
  snapshot_members : List Member
deriving DecidableEq, Repr

/-- Descending insertion by key, embedding
`Object.values(cluster_groups.items).sort((a, b) => b.key.localeCompare(a.key))`
(line 94): the sorted list's head is a maximal-key group. -/
def insertByKeyDesc (g : ClusterGroup) : List ClusterGroup → List ClusterGroup
  | [] => [g]
  | h :: t => if h.key ≤ g.key then g :: h :: t else h :: insertByKeyDesc g t

/-- `...sort(...)[0]` (line 94): the group with the largest key, `none` when
the collection is empty. -/
def pickClusterGroup (groups : List ClusterGroup) : Option ClusterGroup :=
  (groups.foldr insertByKeyDesc []).head?

/-- `cluster_group.settings?.threshold || 0.6` (line 362): JavaScript `||`
falls back to 0.6 when the stored threshold is missing or `0`. -/
def effectiveThreshold (threshold : Option ℚ) : ℚ :=
  match threshold with
  | some t => if t = 0 then 3/5 else t
  | none => 3/5

/-- The observable outcome of one `render` call: either the
`'<div>No cluster group found!</div>'` empty-state fragment (line 96), or the
interactive visualization with its built graph; `simulationStarted` records
that `d3.forceSimulation(nodes)` was constructed and run (lines 390-413). -/
inductive RenderOutcome
  | emptyState
  | visualization (nodes : List VNode) (links : List Link) (simulationStarted : Bool)
deriving DecidableEq, Repr

/-- The top-level control flow of `render` (lines 87-413): pick the
largest-key cluster group, return the empty-state fragment when none exists,
otherwise fetch the snapshot, build the graph at the group's effective
threshold and start the force simulation (the canvas element always exists in
the fragment `build_html` produced, so the early return of line 118 is never
taken). -/
def renderModel (pi : ℚ) (groups : List ClusterGroup) : RenderOutcome :=
  match pickClusterGroup groups with
  | none => RenderOutcome.emptyState
  | some cluster_group =>
    let st := buildGraph pi cluster_group.snapshot_clusters
      cluster_group.snapshot_members (effectiveThreshold cluster_group.threshold)
    RenderOutcome.visualization st.nodes st.links true

/-- The identity keys of the non-center nodes of a node list, in insertion
order. -/
def nonCenterIds (ns : List VNode) : List String :=
  (ns.filter (fun n => decide (n.type ≠ NodeType.center))).map VNode.id

-- Generic preservation of an invariant along a left fold.
theorem foldl_pres {α β : Type} (f : β → α → β) (P : β → Prop)
    (step : ∀ b a, P b → P (f b a)) :
    ∀ (l : List α) (b : β), P b → P (l.foldl f b) := by
  intro l
  induction l with
  | nil => intro b hb; exact hb
  | cons a t ih => intro b hb; exact ih (f b a) (step b a hb)

-- The cluster loop extends `node_map` by exactly the cluster keys.
theorem clusterFold_node_map (pi : ℚ) :
    ∀ (cs : List Cluster) (st : BuildState),
      (cs.foldl (clusterStep pi) st).node_map = st.node_map ++ cs.map Cluster.key := by
  intro cs
  induction cs with
  | nil => intro st; simp
  | cons c t ih =>
    intro st
    simp only [List.foldl_cons, ih, List.map_cons]
    simp [clusterStep]

-- One cluster step adds exactly one non-center id: the cluster key.
theorem clusterStep_nonCenterIds (pi : ℚ) (st : BuildState) (c : Cluster) :
    nonCenterIds (clusterStep pi st c).nodes = nonCenterIds st.nodes ++ [c.key] := by
  simp only [clusterStep, nonCenterIds, List.filter_append, List.map_append, List.filter_cons]
  rw [List.append_cancel_left_eq]
  have hnil : (c.centers.enum.map (fun p =>
      ({ id := p.2.key, type := NodeType.center, color := "#d092c9", radius := 4,
         parent := st.nodes.length,
         offsetAngle := ((p.1 : ℚ) / (c.centers.length : ℚ)) * (2 * pi),
         offsetDist := (20 : ℚ) * (7/10) } : VNode))).filter
        (fun n => decide (n.type ≠ NodeType.center)) = [] := by
    rw [List.filter_eq_nil_iff]
    intro a ha
    rcases List.mem_map.mp ha with ⟨p, _, rfl⟩
    simp
  simp only [hnil]
  simp

-- The member loop keeps `nonCenterIds nodes = node_map` and keeps
-- `node_map` duplicate-free.
theorem memberStep_pres (clusters : List Cluster) (θ : ℚ)
    (st : BuildState) (m : Member)
    (h : nonCenterIds st.nodes = st.node_map ∧ st.node_map.Nodup) :
    nonCenterIds (memberStep clusters θ st m).nodes = (memberStep clusters θ st m).node_map ∧
      (memberStep clusters θ st m).node_map.Nodup := by
  obtain ⟨hids, hnd⟩ := h
  simp only [memberStep]
  by_cases hc : m.item_key ∉ st.node_map ∧ clusters.any (fun c => c.key ≠ m.item_key)
  · rw [if_pos hc]
    constructor
    · simp only [nonCenterIds, List.filter_append, List.map_append]
      rw [nonCenterIds] at hids
      rw [hids]
      rfl
    · simp only [List.nodup_append, List.nodup_cons, List.nodup_nil]
      refine ⟨hnd, by simp, ?_⟩
      intro a ha hb
      simp only [List.mem_singleton] at hb
      subst hb
      exact hc.1 ha
  · rw [if_neg hc]
    exact ⟨hids, hnd⟩

/-- C1 counterexample: a snapshot with one cluster `c1` whose centers list is
`[m1]` and one member with key `m1` builds a plain member node `m1` in
addition to the center node `m1`, so node identity keys are not unique across
the three variants: the member loop deduplicates only against `node_map`,
which never receives center keys. -/
theorem member_center_duplicate_counterexample :
    ((buildGraph jsPi [⟨"c1", [⟨"m1"⟩]⟩] [⟨"m1", [("c1", mkRat 9 10)]⟩]
        (mkRat 1 2)).nodes.map (fun n => (n.id, n.type))) =
      [("c1", NodeType.cluster), ("m1", NodeType.center), ("m1", NodeType.member)] ∧
    ¬ ((buildGraph jsPi [⟨"c1", [⟨"m1"⟩]⟩] [⟨"m1", [("c1", mkRat 9 10)]⟩]
        (mkRat 1 2)).nodes.map VNode.id).Nodup := by
  decide

/-- C1 (amended): across the `cluster` and `member` variants, node identity
keys are unique whenever the snapshot's cluster keys are distinct — a member
node is emitted only for keys not already in `node_map`, which holds every
cluster key and every previously emitted member key.  Center nodes are not
part of this guarantee: a member whose key is among some cluster's centers is
emitted as a plain member node in addition to the center node. -/
theorem build_nonCenter_ids_nodup (pi θ : ℚ) (clusters : List Cluster)
    (members : List Member) (h : (clusters.map Cluster.key).Nodup) :
    (nonCenterIds (buildGraph pi clusters members θ).nodes).Nodup := by
  unfold buildGraph
  have hstep : ∀ (st : BuildState) (m : Member),
      (nonCenterIds st.nodes = st.node_map ∧ st.node_map.Nodup) →
      (nonCenterIds (memberStep clusters θ st m).nodes =
          (memberStep clusters θ st m).node_map ∧
        (memberStep clusters θ st m).node_map.Nodup) :=
    fun st m hp => memberStep_pres clusters θ st m hp
  have hcluster_ids : ∀ (cs : List Cluster) (st : BuildState),
      nonCenterIds st.nodes = st.node_map →
      nonCenterIds (cs.foldl (clusterStep pi) st).nodes =
        (cs.foldl (clusterStep pi) st).node_map := by
    intro cs
    induction cs with
    | nil => intro st hst; exact hst
    | cons c t ih =>
      intro st hst
      simp only [List.foldl_cons]
      apply ih
      rw [clusterStep_nonCenterIds pi st c, hst]
      simp [clusterStep]
  have hbase : nonCenterIds (([] : List VNode)) = ([] : List String) := rfl
  have hst0 : nonCenterIds ((clusters.foldl (clusterStep pi) ⟨[], [], []⟩).nodes) =
      (clusters.foldl (clusterStep pi) ⟨[], [], []⟩).node_map := by
    exact hcluster_ids clusters ⟨[], [], []⟩ hbase
  have hnm0 : (clusters.foldl (clusterStep pi) ⟨[], [], []⟩).node_map =
      clusters.map Cluster.key := by
    rw [clusterFold_node_map]
    simp
  have hinv : nonCenterIds (members.foldl (memberStep clusters θ)
        (clusters.foldl (clusterStep pi) ⟨[], [], []⟩)).nodes =
      (members.foldl (memberStep clusters θ)
        (clusters.foldl (clusterStep pi) ⟨[], [], []⟩)).node_map ∧
      (members.foldl (memberStep clusters θ)
        (clusters.foldl (clusterStep pi) ⟨[], [], []⟩)).node_map.Nodup := by
    apply foldl_pres (memberStep clusters θ)
      (fun st => nonCenterIds st.nodes = st.node_map ∧ st.node_map.Nodup) hstep
    exact ⟨hst0, by rw [hnm0]; exact h⟩
  rw [hinv.1]
  exact hinv.2

/-- C1 witness: the amended uniqueness theorem applied to a concrete snapshot
with two clusters and two members, one of which is also a center. -/
theorem build_nonCenter_ids_nodup_witness :
    (nonCenterIds (buildGraph jsPi
        [⟨"c1", [⟨"m1"⟩]⟩, ⟨"c2", []⟩]
        [⟨"m1", [("c1", mkRat 9 10)]⟩, ⟨"m2", [("c2", mkRat 7 10)]⟩]
        (mkRat 1 2)).nodes).Nodup :=
  build_nonCenter_ids_nodup jsPi (mkRat 1 2)
    [⟨"c1", [⟨"m1"⟩]⟩, ⟨"c2", []⟩]
    [⟨"m1", [("c1", mkRat 9 10)]⟩, ⟨"m2", [("c2", mkRat 7 10)]⟩]
    (by decide)

/-- C3: the snapshot with exactly one cluster `{key:"c1", centers:[]}` and
three members with scores 0.3, 0.6 and 0.9 for `c1`, built at threshold 0.5,
yields exactly 4 nodes and exactly the 2 links to the 0.6 and 0.9 members. -/
theorem small_snapshot_scenario :
    (buildGraph jsPi [⟨"c1", []⟩]
      [⟨"m1", [("c1", mkRat 3 10)]⟩, ⟨"m2", [("c1", mkRat 6 10)]⟩,
        ⟨"m3", [("c1", mkRat 9 10)]⟩]
      (mkRat 1 2)).nodes.length = 4 ∧
    ((buildGraph jsPi [⟨"c1", []⟩]
      [⟨"m1", [("c1", mkRat 3 10)]⟩, ⟨"m2", [("c1", mkRat 6 10)]⟩,
        ⟨"m3", [("c1", mkRat 9 10)]⟩]
      (mkRat 1 2)).links.map (fun l => (l.source, l.target))) =
      [("c1", "m2"), ("c1", "m3")] := by
  decide

/-- The `(cluster, member)` endpoint pair of a link. -/
def linkEndpoints (l : Link) : String × String := (l.source, l.target)

-- Projection of `memberStep`: the nodes array it produces.
theorem memberStep_nodes (cs : List Cluster) (θ : ℚ) (st : BuildState) (m : Member) :
    (memberStep cs θ st m).nodes =
      if m.item_key ∉ st.node_map ∧ cs.any (fun c => c.key ≠ m.item_key) then
        st.nodes ++
          [{ id := m.item_key, type := NodeType.member, color := "#7c8594", radius := 7 }]
      else st.nodes := by
  simp only [memberStep]
  split
  next => rfl
  next => rfl

-- Projection of `memberStep`: the `node_map` key list it produces.
theorem memberStep_node_map (cs : List Cluster) (θ : ℚ) (st : BuildState) (m : Member) :
    (memberStep cs θ st m).node_map =
      if m.item_key ∉ st.node_map ∧ cs.any (fun c => c.key ≠ m.item_key) then
        st.node_map ++ [m.item_key]
      else st.node_map := by
  simp only [memberStep]
  split
  next => rfl
  next => rfl

-- Projection of `memberStep`: the links it appends.
theorem memberStep_links (cs : List Cluster) (θ : ℚ) (st : BuildState) (m : Member) :
    (memberStep cs θ st m).links =
      st.links ++ m.clusters.filterMap
        (memberLink m.item_key θ (memberStep cs θ st m).node_map) := by
  rw [memberStep_node_map]
  simp only [memberStep]
  split
  next => rfl
  next => rfl

-- Lowering the threshold keeps every link the loop body produced.
theorem memberLink_mono (mk : String) (t1 t2 : ℚ) (h : t1 ≤ t2)
    (nm : List String) (p : String × ℚ) (l : Link)
    (hl : memberLink mk t2 nm p = some l) : memberLink mk t1 nm p = some l := by
  by_cases hc : p.2 ≥ t2 ∧ p.1 ∈ nm
  · rw [memberLink, if_pos hc] at hl
    rw [memberLink, if_pos ⟨le_trans h hc.1, hc.2⟩]
    exact hl
  · rw [memberLink, if_neg hc] at hl
    exact absurd hl (by simp)

-- Running the member fold at a lower threshold produces the same nodes and
-- node map and a superset of the links.
theorem memberFold_mono (cs : List Cluster) (t1 t2 : ℚ) (h : t1 ≤ t2) :
    ∀ (ms : List Member) (sa sb : BuildState),
      sa.nodes = sb.nodes → sa.node_map = sb.node_map →
      (∀ l ∈ sb.links, l ∈ sa.links) →
      (ms.foldl (memberStep cs t1) sa).nodes = (ms.foldl (memberStep cs t2) sb).nodes ∧
      (ms.foldl (memberStep cs t1) sa).node_map = (ms.foldl (memberStep cs t2) sb).node_map ∧
      ∀ l ∈ (ms.foldl (memberStep cs t2) sb).links, l ∈ (ms.foldl (memberStep cs t1) sa).links := by
  intro ms
  induction ms with
  | nil => intro sa sb h1 h2 h3; exact ⟨h1, h2, h3⟩
  | cons m t ih =>
    intro sa sb h1 h2 h3
    simp only [List.foldl_cons]
    apply ih
    · rw [memberStep_nodes, memberStep_nodes, h1, h2]
    · rw [memberStep_node_map, memberStep_node_map, h2]
    · intro l hl
      rw [memberStep_links] at hl ⊢
      rcases List.mem_append.mp hl with hl | hl
      · exact List.mem_append.mpr (Or.inl (h3 l hl))
      · refine List.mem_append.mpr (Or.inr ?_)
        rcases List.mem_filterMap.mp hl with ⟨p, hp, hsome⟩
        refine List.mem_filterMap.mpr ⟨p, hp, ?_⟩
        have hnm : (memberStep cs t1 sa m).node_map = (memberStep cs t2 sb m).node_map := by
          rw [memberStep_node_map, memberStep_node_map, h2]
        rw [hnm]
        exact memberLink_mono m.item_key t1 t2 h _ p l hsome

/-- C2: for a fixed snapshot, threshold filtering is monotone.  Raising the
threshold never adds a link: at `t1 < t2` the `(cluster, member)` pairs of
the link set rebuilt by `updateLinks` at `t2` are a subset of those rebuilt
at `t1`, and likewise for the link set built by the graph builder of
`render`. -/
theorem links_threshold_monotone (members : List Member) (node_map : List String)
    (links : List Link) (t1 t2 : ℚ) (h : t1 < t2) :
    (∀ p ∈ (updateLinks members node_map links t2).map linkEndpoints,
      p ∈ (updateLinks members node_map links t1).map linkEndpoints) ∧
    (∀ (pi : ℚ) (clusters : List Cluster),
      ∀ p ∈ (buildGraph pi clusters members t2).links.map linkEndpoints,
        p ∈ (buildGraph pi clusters members t1).links.map linkEndpoints) := by
  constructor
  · intro p hp
    rcases List.mem_map.mp hp with ⟨l, hl, rfl⟩
    rcases List.mem_flatMap.mp hl with ⟨m, hm, hlm⟩
    rcases List.mem_filterMap.mp hlm with ⟨cs, hcs, hsome⟩
    by_cases hc : cs.2 ≥ t2 ∧ cs.1 ∈ node_map
    · refine List.mem_map.mpr ⟨l, ?_, rfl⟩
      refine List.mem_flatMap.mpr ⟨m, hm, ?_⟩
      refine List.mem_filterMap.mpr ⟨cs, hcs, ?_⟩
      simp only [updateLinks] at hsome ⊢
      rw [if_pos hc] at hsome
      rw [if_pos ⟨le_trans (le_of_lt h) hc.1, hc.2⟩]
      exact hsome
    · simp only [updateLinks] at hsome
      rw [if_neg hc] at hsome
      exact absurd hsome (by simp)
  · intro pi clusters p hp
    rcases List.mem_map.mp hp with ⟨l, hl, rfl⟩
    unfold buildGraph at hl ⊢
    have hmono := memberFold_mono clusters t1 t2 (le_of_lt h) members
      (clusters.foldl (clusterStep pi) ⟨[], [], []⟩)
      (clusters.foldl (clusterStep pi) ⟨[], [], []⟩) rfl rfl (fun l hl => hl)
    exact List.mem_map.mpr ⟨l, hmono.2.2 l hl, rfl⟩

/-- C2 witness: the monotonicity theorem applied to a concrete snapshot and
the threshold pair 0.5 < 0.7: the link surviving at 0.7 is also present at
0.5. -/
theorem links_threshold_monotone_witness :
    ("c1", "m2") ∈ (updateLinks
      [⟨"m1", [("c1", mkRat 3 10)]⟩, ⟨"m2", [("c1", mkRat 9 10)]⟩]
      ["c1"] [] (mkRat 1 2)).map linkEndpoints :=
  (links_threshold_monotone
      [⟨"m1", [("c1", mkRat 3 10)]⟩, ⟨"m2", [("c1", mkRat 9 10)]⟩]
      ["c1"] [] (mkRat 1 2) (mkRat 7 10) (by decide)).1
    ("c1", "m2") (by decide)

/-- C4: after the center-positioning pass of `ticked()`, every center node
sits exactly at `parent.position + offsetDist·(cos, sin)(offsetAngle)` (the
parent cluster node itself is left untouched by the pass) and is pinned
there: `fx` and `fy` equal that same position, so centers never drift off
their parent cluster's ring. -/
theorem ticked_center_position_pinned (c s : ℚ → ℚ) (ns : List VNode)
    (i : Nat) (n : VNode) (hn : ns.get? i = some n) (hc : n.type = NodeType.center)
    (p : VNode) (hp : ns.get? n.parent = some p) (hpc : p.type ≠ NodeType.center) :
    (tickCenterPass c s ns).get? n.parent = some p ∧
    (tickCenterPass c s ns).get? i = some { n with
        x := p.x + n.offsetDist * c n.offsetAngle,
        y := p.y + n.offsetDist * s n.offsetAngle,
        fx := some (p.x + n.offsetDist * c n.offsetAngle),
        fy := some (p.y + n.offsetDist * s n.offsetAngle) } := by
  constructor
  · rw [tickCenterPass, List.get?_map, hp]
    simp only [Option.map_some']
    rw [if_neg hpc]
  · rw [tickCenterPass, List.get?_map, hn]
    simp only [Option.map_some']
    rw [if_pos hc, hp]

/-- C4 witness: the tick pass applied to a concrete two-node list (a cluster
at (10, 20) and its center child) with concrete stand-ins for cos and sin. -/
theorem ticked_center_position_pinned_witness :
    (tickCenterPass (fun _ => 1) (fun _ => 0)
        [{ id := "c1", type := NodeType.cluster, x := 10, y := 20 },
         { id := "m1", type := NodeType.center, x := 0, y := 0, parent := 0,
           offsetAngle := 0, offsetDist := 5 }]).get? 0 =
      some { id := "c1", type := NodeType.cluster, x := 10, y := 20 } ∧
    (tickCenterPass (fun _ => 1) (fun _ => 0)
        [{ id := "c1", type := NodeType.cluster, x := 10, y := 20 },
         { id := "m1", type := NodeType.center, x := 0, y := 0, parent := 0,
           offsetAngle := 0, offsetDist := 5 }]).get? 1 =
      some { id := "m1", type := NodeType.center,
             x := (10 : ℚ) + 5 * (fun (_ : ℚ) => (1 : ℚ)) 0,
             y := (20 : ℚ) + 5 * (fun (_ : ℚ) => (0 : ℚ)) 0,
             fx := some ((10 : ℚ) + 5 * (fun (_ : ℚ) => (1 : ℚ)) 0),
             fy := some ((20 : ℚ) + 5 * (fun (_ : ℚ) => (0 : ℚ)) 0),
             parent := 0, offsetAngle := 0, offsetDist := 5 } :=
  ticked_center_position_pinned (fun _ => 1) (fun _ => 0)
    [{ id := "c1", type := NodeType.cluster, x := 10, y := 20 },
     { id := "m1", type := NodeType.center, x := 0, y := 0, parent := 0,
       offsetAngle := 0, offsetDist := 5 }]
    1 _ rfl rfl _ rfl (by decide)

-- Inserting into the descending-ordered list never yields the empty list.
theorem insertByKeyDesc_ne_nil (g : ClusterGroup) (l : List ClusterGroup) :
    insertByKeyDesc g l ≠ [] := by
  cases l with
  | nil => simp [insertByKeyDesc]
  | cons h t =>
    simp only [insertByKeyDesc]
    split <;> simp

-- `sort(...)[0]` is `undefined` exactly when the collection is empty.
theorem pickClusterGroup_eq_none_iff (groups : List ClusterGroup) :
    pickClusterGroup groups = none ↔ groups = [] := by
  cases groups with
  | nil => simp [pickClusterGroup]
  | cons g t =>
    simp only [pickClusterGroup, List.foldr_cons, List.head?_eq_none_iff]
    constructor
    · intro h
      exact absurd h (insertByKeyDesc_ne_nil g _)
    · intro h
      exact absurd h (by simp)

/-- C5 counterexample: with one cluster group whose snapshot has an empty
cluster list, `render` does not return the empty-state fragment — it builds
an empty graph and still constructs and runs the force simulation; the
`'No cluster group found!'` early return fires only when the cluster-group
collection itself is empty. -/
theorem empty_clusters_still_simulates_counterexample :
    renderModel jsPi [⟨"group1", none, [], []⟩] =
      RenderOutcome.visualization [] [] true ∧
    renderModel jsPi [⟨"group1", none, [], []⟩] ≠ RenderOutcome.emptyState := by
  decide

/-- C5 (amended): `render` returns the explicit empty-state fragment exactly
when no cluster group exists at all; whenever some cluster group exists —
even one whose snapshot cluster list is empty — render proceeds to build the
(possibly empty) graph and starts the force simulation. -/
theorem render_empty_state_iff_no_group (pi : ℚ) (groups : List ClusterGroup) :
    (renderModel pi groups = RenderOutcome.emptyState ↔ groups = []) ∧
    (groups ≠ [] → ∃ nodes links,
      renderModel pi groups = RenderOutcome.visualization nodes links true) := by
  rcases hpick : pickClusterGroup groups with _ | g
  · have hg : groups = [] := (pickClusterGroup_eq_none_iff groups).mp hpick
    subst hg
    constructor
    · simp [renderModel, pickClusterGroup]
    · intro h
      exact absurd rfl h
  · have hg : groups ≠ [] := by
      intro h
      subst h
      simp [pickClusterGroup] at hpick
    constructor
    · constructor
      · intro h
        rw [renderModel, hpick] at h
        exact absurd h (by simp)
      · intro h
        exact absurd h hg
    · intro _
      refine ⟨(buildGraph pi g.snapshot_clusters g.snapshot_members
          (effectiveThreshold g.threshold)).nodes,
        (buildGraph pi g.snapshot_clusters g.snapshot_members
          (effectiveThreshold g.threshold)).links, ?_⟩
      rw [renderModel, hpick]

/-- C5 witness: the amended theorem applied to the empty collection and to a
concrete one-group collection. -/
theorem render_empty_state_iff_no_group_witness :
    renderModel jsPi [] = RenderOutcome.emptyState ∧
    renderModel jsPi [⟨"g1", some (mkRat 1 2), [], []⟩] ≠ RenderOutcome.emptyState :=
  ⟨(render_empty_state_iff_no_group jsPi []).1.mpr rfl,
   fun he =>
     absurd ((render_empty_state_iff_no_group jsPi
       [⟨"g1", some (mkRat 1 2), [], []⟩]).1.mp he) (by decide)⟩

set_option maxRecDepth 4000 in
/-- C6 counterexample: a 201-node graph and a 10-node graph receive the same
applied charge strength, -400 — the simulation's repulsion is not scaled down
past 200 nodes; the `-60 : -100` candidate of line 389 is computed but never
installed. -/
theorem applied_charge_strength_constant_counterexample :
    (List.replicate 201 ({ id := "n", type := NodeType.member } : VNode)).length > 200 ∧
    (simulationConfig
      (List.replicate 201 ({ id := "n", type := NodeType.member } : VNode))).chargeStrength
      = -400 ∧
    (simulationConfig
      (List.replicate 10 ({ id := "n", type := NodeType.member } : VNode))).chargeStrength
      = -400 ∧
    charge_strength 201 = -60 := by
  decide

/-- C6 (amended): `render` computes the node-count-dependent candidate
`charge_strength` (line 389: -60 above 200 nodes, -100 otherwise) but never
applies it; the charge force actually installed on the simulation uses the
constant strength -400 (line 393) for every node list. -/
theorem applied_charge_strength_constant (ns1 ns2 : List VNode) :
    (simulationConfig ns1).chargeStrength = -400 ∧
    (simulationConfig ns1).chargeStrength = (simulationConfig ns2).chargeStrength :=
  ⟨rfl, rfl⟩

-- The descending scan is the first-match search over the reversed list.
theorem findNodeAtGo_eq_find? (sx sy zoom thr : ℚ) :
    ∀ l : List VNode,
      findNodeAtGo sx sy zoom thr l = l.find? (fun node =>
        decide (¬(node.type = NodeType.center ∧ zoom < thr)) &&
        decide ((sx - node.x) * (sx - node.x) + (sy - node.y) * (sy - node.y) ≤
          node.radius * node.radius)) := by
  intro l
  induction l with
  | nil => rfl
  | cons node rest ih =>
    simp only [findNodeAtGo]
    by_cases h1 : node.type = NodeType.center ∧ zoom < thr
    · rw [if_pos h1, List.find?_cons_of_neg _ (by simp [h1]), ih]
    · by_cases h2 : (sx - node.x) * (sx - node.x) + (sy - node.y) * (sy - node.y) ≤
          node.radius * node.radius
      · rw [if_neg h1, if_pos h2, List.find?_cons_of_pos _ (by simp [h1, h2])]
      · rw [if_neg h1, if_neg h2, List.find?_cons_of_neg _ (by simp [h1, h2]), ih]

/-- C7: `findNodeAt` scans the nodes in reverse insertion order and returns
the first node (among those not suppressed by the level-of-detail rule)
whose squared Euclidean distance to the query point is within its squared
radius; and when the zoom scale is below the expansion threshold 3.0 it
never returns a `center`-type node, even when the query point lies inside
that center's circle. -/
theorem findNodeAt_reverse_first_hit_and_lod (sx sy zoom : ℚ) (nodes : List VNode) :
    findNodeAt sx sy nodes zoom 3 =
      nodes.reverse.find? (fun node =>
        decide (¬(node.type = NodeType.center ∧ zoom < 3)) &&
        decide ((sx - node.x) * (sx - node.x) + (sy - node.y) * (sy - node.y) ≤
          node.radius * node.radius)) ∧
    (zoom < 3 → ∀ n, findNodeAt sx sy nodes zoom 3 = some n →
      n.type ≠ NodeType.center) := by
  have heq := findNodeAtGo_eq_find? sx sy zoom 3 nodes.reverse
  refine ⟨heq, ?_⟩
  intro hzoom n hn hcenter
  rw [findNodeAt, heq] at hn
  have hp := List.find?_some hn
  simp only [Bool.and_eq_true, decide_eq_true_eq] at hp
  exact hp.1 ⟨hcenter, hzoom⟩

/-- C7 witness: at zoom 1.0 (below the 3.0 threshold) the picker does not
return the center node even though the query point (0,0) lies exactly inside
that center's circle of radius 4 at (0,0). -/
theorem findNodeAt_reverse_first_hit_and_lod_witness :
    (1 : ℚ) < 3 ∧
    findNodeAt 0 0
        [{ id := "c1", type := NodeType.cluster, radius := 20, x := 0, y := 0 },
         { id := "m1", type := NodeType.center, radius := 4, x := 0, y := 0, parent := 0 }]
        1 3 ≠
      some { id := "m1", type := NodeType.center, radius := 4, x := 0, y := 0, parent := 0 } :=
  ⟨by decide,
   fun heq =>
     (findNodeAt_reverse_first_hit_and_lod 0 0 1
        [{ id := "c1", type := NodeType.cluster, radius := 20, x := 0, y := 0 },
         { id := "m1", type := NodeType.center, radius := 4, x := 0, y := 0, parent := 0 }]).2
       (by decide) _ heq rfl⟩

-- Looking up a recorded start position: a selected index that resolves in
-- the node list is found with exactly its recorded coordinates.
theorem filterMap_find?_idx (ns0 : List VNode) (i : Nat) (n0 : VNode)
    (h0 : ns0.get? i = some n0) :
    ∀ sel : List Nat, i ∈ sel →
      ((sel.filterMap (fun j => (ns0.get? j).map (fun sn => (j, sn.x, sn.y)))).find?
        (fun e => e.1 = i)) = some (i, n0.x, n0.y) := by
  intro sel
  induction sel with
  | nil => intro h; simp at h
  | cons j t ih =>
    intro hi
    by_cases hj : j = i
    · subst hj
      simp only [List.filterMap_cons, h0, Option.map_some']
      rw [List.find?_cons_of_pos _ (by simp)]
    · have hit : i ∈ t := by
        rcases List.mem_cons.mp hi with h | h
        · exact absurd h.symm hj
        · exact h
      rcases hji : ns0.get? j with _ | nj
      · simp only [List.filterMap_cons, hji, Option.map_none']
        exact ih hit
      · simp only [List.filterMap_cons, hji, Option.map_some']
        rw [List.find?_cons_of_neg _ (by simp [hj])]
        exact ih hit

-- An unselected index has no recorded start position.
theorem dragStart_find?_none (selected : List Nat) (subject : Nat)
    (ns0 : List VNode) (i : Nat) (hsub : subject ∈ selected) (hi : i ∉ selected) :
    ((dragStartState selected subject ns0).find? (fun e => e.1 = i)) = none := by
  rw [dragStartState, if_pos hsub]
  rw [List.find?_eq_none]
  intro x hx
  rcases List.mem_filterMap.mp hx with ⟨j, hj, hfj⟩
  rcases hoj : ns0.get? j with _ | nj
  · rw [hoj] at hfj
    simp at hfj
  · rw [hoj] at hfj
    simp only [Option.map_some', Option.some.injEq] at hfj
    subst hfj
    simp only [decide_eq_true_eq]
    intro h
    exact hi (h ▸ hj)

-- Elementwise view of the drag handler's node update.
theorem dragFrame_get? (t : Transform) (d : ℚ × ℚ) (sp : List (Nat × ℚ × ℚ))
    (m : ℚ × ℚ) (ns : List VNode) (i : Nat) :
    (dragFrame t d sp m ns).get? i = (ns.get? i).map (fun n =>
      match sp.find? (fun e => e.1 = i) with
      | some e => { n with fx := some (e.2.1 + ((transformInvert t m).1 - d.1)),
                           fy := some (e.2.2 + ((transformInvert t m).2 - d.2)) }
      | none => n) := by
  simp only [dragFrame]
  rw [List.get?_map, List.get?_enum]
  cases ns.get? i <;> simp

/-- C8: when a drag starts on a node of the current selection and the
viewport scale is 1, each drag frame pins every selected node at its
recorded start position plus the pointer's screen delta
`(m.1 - m0.1, m.2 - m0.2)`, and leaves every unselected node untouched for
that frame. -/
theorem drag_group_moves_selected_only (t : Transform) (hk : t.k = 1)
    (selected : List Nat) (subject : Nat) (hsub : subject ∈ selected)
    (ns0 ns : List VNode) (m0 m : ℚ × ℚ) (i : Nat) :
    (∀ n0 n, i ∈ selected → ns0.get? i = some n0 → ns.get? i = some n →
      (dragFrame t (transformInvert t m0) (dragStartState selected subject ns0) m ns).get? i
        = some { n with fx := some (n0.x + (m.1 - m0.1)),
                        fy := some (n0.y + (m.2 - m0.2)) }) ∧
    (i ∉ selected →
      (dragFrame t (transformInvert t m0) (dragStartState selected subject ns0) m ns).get? i
        = ns.get? i) := by
  constructor
  · intro n0 n hi h0 hcur
    rw [dragFrame_get?, hcur]
    simp only [Option.map_some']
    rw [dragStartState, if_pos hsub, filterMap_find?_idx ns0 i n0 h0 selected hi]
    have hx : n0.x + ((transformInvert t m).1 - (transformInvert t m0).1)
        = n0.x + (m.1 - m0.1) := by
      simp only [transformInvert, hk, div_one]
      ring
    have hy : n0.y + ((transformInvert t m).2 - (transformInvert t m0).2)
        = n0.y + (m.2 - m0.2) := by
      simp only [transformInvert, hk, div_one]
      ring
    show some ({ n with
        fx := some (n0.x + ((transformInvert t m).1 - (transformInvert t m0).1)),
        fy := some (n0.y + ((transformInvert t m).2 - (transformInvert t m0).2)) }) = _
    rw [hx, hy]
  · intro hi
    rw [dragFrame_get?, dragStart_find?_none selected subject ns0 i hsub hi]
    cases ns.get? i <;> simp

/-- C8 witness: a concrete 4-node list with the 3-node selection `{0, 1, 2}`,
drag subject 1, identity-scale transform translated by (5, 7), and a pointer
that moved from (3, 4) to (13, 24) — a (10, 20) screen delta: node 0 is
pinned at its start position plus (10, 20), node 3 is untouched. -/
theorem drag_group_moves_selected_only_witness :
    (dragFrame ⟨5, 7, 1⟩ (transformInvert ⟨5, 7, 1⟩ (3, 4))
        (dragStartState [0, 1, 2] 1
          [{ id := "a", type := NodeType.member, x := 100, y := 200 },
           { id := "b", type := NodeType.member, x := 10, y := 20 },
           { id := "c", type := NodeType.member, x := 0, y := 0 },
           { id := "d", type := NodeType.member, x := 1, y := 2 }])
        (13, 24)
        [{ id := "a", type := NodeType.member, x := 100, y := 200 },
         { id := "b", type := NodeType.member, x := 10, y := 20 },
         { id := "c", type := NodeType.member, x := 0, y := 0 },
         { id := "d", type := NodeType.member, x := 1, y := 2 }]).get? 0
      = some { id := "a", type := NodeType.member, x := 100, y := 200,
               fx := some ((100 : ℚ) + ((13 : ℚ) - 3)),
               fy := some ((200 : ℚ) + ((24 : ℚ) - 4)) } ∧
    (dragFrame ⟨5, 7, 1⟩ (transformInvert ⟨5, 7, 1⟩ (3, 4))
        (dragStartState [0, 1, 2] 1
          [{ id := "a", type := NodeType.member, x := 100, y := 200 },
           { id := "b", type := NodeType.member, x := 10, y := 20 },
           { id := "c", type := NodeType.member, x := 0, y := 0 },
           { id := "d", type := NodeType.member, x := 1, y := 2 }])
        (13, 24)
        [{ id := "a", type := NodeType.member, x := 100, y := 200 },
         { id := "b", type := NodeType.member, x := 10, y := 20 },
         { id := "c", type := NodeType.member, x := 0, y := 0 },
         { id := "d", type := NodeType.member, x := 1, y := 2 }]).get? 3
      = some { id := "d", type := NodeType.member, x := 1, y := 2 } :=
  ⟨(drag_group_moves_selected_only ⟨5, 7, 1⟩ rfl [0, 1, 2] 1 (by decide)
      [{ id := "a", type := NodeType.member, x := 100, y := 200 },
       { id := "b", type := NodeType.member, x := 10, y := 20 },
       { id := "c", type := NodeType.member, x := 0, y := 0 },
       { id := "d", type := NodeType.member, x := 1, y := 2 }]
      [{ id := "a", type := NodeType.member, x := 100, y := 200 },
       { id := "b", type := NodeType.member, x := 10, y := 20 },
       { id := "c", type := NodeType.member, x := 0, y := 0 },
       { id := "d", type := NodeType.member, x := 1, y := 2 }]
      (3, 4) (13, 24) 0).1 _ _ (by decide) rfl rfl,
   (drag_group_moves_selected_only ⟨5, 7, 1⟩ rfl [0, 1, 2] 1 (by decide)
      [{ id := "a", type := NodeType.member, x := 100, y := 200 },
       { id := "b", type := NodeType.member, x := 10, y := 20 },
       { id := "c", type := NodeType.member, x := 0, y := 0 },
       { id := "d", type := NodeType.member, x := 1, y := 2 }]
      [{ id := "a", type := NodeType.member, x := 100, y := 200 },
       { id := "b", type := NodeType.member, x := 10, y := 20 },
       { id := "c", type := NodeType.member, x := 0, y := 0 },
       { id := "d", type := NodeType.member, x := 1, y := 2 }]
      (3, 4) (13, 24) 3).2 (by decide)⟩

-- The seed of a max fold is a lower bound of its result.
theorem foldl_max_ge (f : VNode → ℚ) :
    ∀ (l : List VNode) (a : ℚ), a ≤ l.foldl (fun m d => max m (f d)) a := by
  intro l
  induction l with
  | nil => intro a; exact le_refl a
  | cons d t ih => intro a; exact le_trans (le_max_left a (f d)) (ih (max a (f d)))

-- The seed of a min fold is an upper bound of its result.
theorem foldl_min_le (f : VNode → ℚ) :
    ∀ (l : List VNode) (a : ℚ), l.foldl (fun m d => min m (f d)) a ≤ a := by
  intro l
  induction l with
  | nil => intro a; exact le_refl a
  | cons d t ih => intro a; exact le_trans (ih (min a (f d))) (min_le_left a (f d))

-- The bounding box of a nonempty node list is well ordered in x.
theorem nodesMinX_le_nodesMaxX (n0 : VNode) (rest : List VNode) :
    nodesMinX (n0 :: rest) ≤ nodesMaxX (n0 :: rest) :=
  le_trans (foldl_min_le (fun d => d.x) rest n0.x) (foldl_max_ge (fun d => d.x) rest n0.x)

-- The bounding box of a nonempty node list is well ordered in y.
theorem nodesMinY_le_nodesMaxY (n0 : VNode) (rest : List VNode) :
    nodesMinY (n0 :: rest) ≤ nodesMaxY (n0 :: rest) :=
  le_trans (foldl_min_le (fun d => d.y) rest n0.y) (foldl_max_ge (fun d => d.y) rest n0.y)

/-- C9: when the bounding box of a nonempty node list has zero width or zero
height, `centerNetwork` sets the identity-scale transform centered on the
canvas, `translate(w/2, h/2).scale(1)`; and in the non-degenerate branch
(with a positive canvas) the scale's divisor `max(bw/w, bh/h)` is strictly
positive, so the fit never divides by a zero extent. -/
theorem centerNetwork_degenerate_identity (nodes : List VNode) (w h : ℚ)
    (hne : nodes ≠ []) :
    ((nodesMaxX nodes - nodesMinX nodes = 0 ∨ nodesMaxY nodes - nodesMinY nodes = 0) →
      centerNetwork nodes w h = ⟨w/2, h/2, 1⟩) ∧
    (0 < w → 0 < h →
      ¬(nodesMaxX nodes - nodesMinX nodes = 0 ∨ nodesMaxY nodes - nodesMinY nodes = 0) →
      0 < max ((nodesMaxX nodes - nodesMinX nodes) / w)
        ((nodesMaxY nodes - nodesMinY nodes) / h)) := by
  match nodes, hne with
  | n0 :: rest, _ =>
    constructor
    · intro hdeg
      rw [centerNetwork]
      rw [if_pos hdeg]
      simp [scaleT, translateT, zoomIdentity]
    · intro hw hh hdeg
      push_neg at hdeg
      have hx0 : 0 ≤ nodesMaxX (n0 :: rest) - nodesMinX (n0 :: rest) :=
        sub_nonneg.mpr (nodesMinX_le_nodesMaxX n0 rest)
      have hxpos : 0 < nodesMaxX (n0 :: rest) - nodesMinX (n0 :: rest) :=
        lt_of_le_of_ne hx0 (Ne.symm hdeg.1)
      exact lt_of_lt_of_le (div_pos hxpos hw) (le_max_left _ _)

/-- C9 witness: three nodes all at the point (3, 4) with an 800×600 canvas:
the transform is `translate(400, 300).scale(1)`. -/
theorem centerNetwork_degenerate_identity_witness :
    centerNetwork
        [{ id := "a", type := NodeType.member, x := 3, y := 4 },
         { id := "b", type := NodeType.member, x := 3, y := 4 },
         { id := "c", type := NodeType.member, x := 3, y := 4 }]
        800 600 = ⟨(800 : ℚ)/2, (600 : ℚ)/2, 1⟩ :=
  (centerNetwork_degenerate_identity
      [{ id := "a", type := NodeType.member, x := 3, y := 4 },
       { id := "b", type := NodeType.member, x := 3, y := 4 },
       { id := "c", type := NodeType.member, x := 3, y := 4 }]
      800 600 (by simp)).1
    (Or.inl (by simp [nodesMaxX, nodesMinX]))

/-- C10: every link rebuilt by `updateLinks` whose `(cluster, member)` pair
already had a link in the previous link set keeps that prior link's stroke
color and `currentAlpha` (given that the prior values are not the JavaScript
falsy values `''` and `0`, which never occur in this program: strokes are
always `'#4c7787'` and `currentAlpha` decays toward 0.05 or 1 from 1), and
every pair with no prior link gets stroke `'#4c7787'` and `currentAlpha` 1 —
surviving links do not visually reset on a threshold-only relink. -/
theorem updateLinks_preserves_link_style (members : List Member)
    (node_map : List String) (links : List Link) (threshold : ℚ) :
    ∀ l ∈ updateLinks members node_map links threshold,
      (∀ l0, links.find? (fun e => e.source = l.source ∧ e.target = l.target) = some l0 →
        (l0.stroke ≠ "" → l.stroke = l0.stroke) ∧
        (l0.currentAlpha ≠ 0 → l.currentAlpha = l0.currentAlpha)) ∧
      (links.find? (fun e => e.source = l.source ∧ e.target = l.target) = none →
        l.stroke = "#4c7787" ∧ l.currentAlpha = 1) := by
  intro l hl
  rcases List.mem_flatMap.mp hl with ⟨m, hm, hlm⟩
  rcases List.mem_filterMap.mp hlm with ⟨cs, hcs, hsome⟩
  by_cases hc : cs.2 ≥ threshold ∧ cs.1 ∈ node_map
  · rw [if_pos hc, Option.some.injEq] at hsome
    subst hsome
    dsimp only
    constructor
    · intro l0 hfind
      rw [hfind]
      constructor
      · intro hstroke
        show (if l0.stroke = "" then "#4c7787" else l0.stroke) = l0.stroke
        rw [if_neg hstroke]
      · intro halpha
        show (if l0.currentAlpha = 0 then 1 else l0.currentAlpha) = l0.currentAlpha
        rw [if_neg halpha]
    · intro hfind
      rw [hfind]
      exact ⟨rfl, rfl⟩
  · rw [if_neg hc] at hsome
    exact absurd hsome (by simp)

/-- C10 witness: the style-preservation theorem applied to a concrete relink.
The pair `(c1, m1)` had a prior link with stroke `#ff0000` and alpha 1/2 and
keeps both; the new pair `(c1, m2)` gets the defaults. -/
theorem updateLinks_preserves_link_style_witness :
    (⟨"c1", "m1", mkRat 9 10, "#ff0000", mkRat 1 2⟩ : Link) ∈
      updateLinks [⟨"m1", [("c1", mkRat 9 10)]⟩, ⟨"m2", [("c1", mkRat 8 10)]⟩]
        ["c1"] [⟨"c1", "m1", mkRat 9 10, "#ff0000", mkRat 1 2⟩] (mkRat 1 2) ∧
    (⟨"c1", "m1", mkRat 9 10, "#ff0000", mkRat 1 2⟩ : Link).stroke =
      (⟨"c1", "m1", mkRat 9 10, "#ff0000", mkRat 1 2⟩ : Link).stroke ∧
    (⟨"c1", "m2", mkRat 8 10, "#4c7787", 1⟩ : Link).stroke = "#4c7787" ∧
    (⟨"c1", "m2", mkRat 8 10, "#4c7787", 1⟩ : Link).currentAlpha = 1 := by
  refine ⟨by decide, ?_, ?_, ?_⟩
  · exact (((updateLinks_preserves_link_style
      [⟨"m1", [("c1", mkRat 9 10)]⟩, ⟨"m2", [("c1", mkRat 8 10)]⟩]
      ["c1"] [⟨"c1", "m1", mkRat 9 10, "#ff0000", mkRat 1 2⟩] (mkRat 1 2))
      ⟨"c1", "m1", mkRat 9 10, "#ff0000", mkRat 1 2⟩ (by decide)).1
      ⟨"c1", "m1", mkRat 9 10, "#ff0000", mkRat 1 2⟩ (by decide)).1 (by decide) ▸ rfl
  · exact (((updateLinks_preserves_link_style
      [⟨"m1", [("c1", mkRat 9 10)]⟩, ⟨"m2", [("c1", mkRat 8 10)]⟩]
      ["c1"] [⟨"c1", "m1", mkRat 9 10, "#ff0000", mkRat 1 2⟩] (mkRat 1 2))
      ⟨"c1", "m2", mkRat 8 10, "#4c7787", 1⟩ (by decide)).2 (by decide)).1
  · exact (((updateLinks_preserves_link_style
      [⟨"m1", [("c1", mkRat 9 10)]⟩, ⟨"m2", [("c1", mkRat 8 10)]⟩]
      ["c1"] [⟨"c1", "m1", mkRat 9 10, "#ff0000", mkRat 1 2⟩] (mkRat 1 2))
      ⟨"c1", "m2", mkRat 8 10, "#4c7787", 1⟩ (by decide)).2 (by decide)).2

end ClustersVisualizer
